import Mathlib

/-!
Verification of the Simit LLVM backend lowering pass
(`src/backend/llvm/llvm_backend.cpp`) against its specification.

The backend emits LLVM IR.  This development shallowly embeds the *runtime
denotation* of the emitted instruction sequences: emitted arithmetic
instructions become integer arithmetic, extracts and loads from composite
set-typed backend values read the corresponding fields of a `SetValue`
record, and emission paths whose claims are about *which* instructions are
produced (buffer allocation, assignment) are reified as explicit
instruction lists.  Fallible lowering paths (`not_supported_yet`,
`iassert`/`ierror`/`tassert` failures) return `Except`.
-/

namespace Simit

/-- Component kinds of tensor scalar types (`ScalarType::Kind`). -/
inductive ScalarKind
  | int
  | float
  | boolean
deriving DecidableEq, Repr

/-- Global float-width configuration: `ScalarType::floatBytes` is 4 in
single-float (`_f32`) mode and 8 in double (`_f64`) mode. -/
structure Config where
  floatBytes : Int
deriving DecidableEq, Repr

/-- `ScalarType::bytes()`: 4-byte ints, the configured float width,
1-byte booleans. -/
def ScalarKind.bytes (cfg : Config) : ScalarKind → Int
  | .int => 4
  | .float => cfg.floatBytes
  | .boolean => 1

/-- Lowering errors.  `notSupported` models the `not_supported_yet` /
`uassert` reportable-error tier and `internal` models the
`iassert`/`ierror`/`tassert` fatal-internal tier. -/
inductive Err
  | notSupported (msg : String)
  | internal (msg : String)
deriving DecidableEq, Repr

instance instDecEqExcept {ε α : Type} [DecidableEq ε] [DecidableEq α] :
    DecidableEq (Except ε α) := fun x y =>
  match x, y with
  | .ok a, .ok b =>
      if h : a = b then isTrue (by rw [h]) else isFalse (by simp [h])
  | .error e, .error f =>
      if h : e = f then isTrue (by rw [h]) else isFalse (by simp [h])
  | .ok _, .error _ => isFalse (by simp)
  | .error _, .ok _ => isFalse (by simp)

/-- Runtime denotation of a set-typed composite backend value (Composite
Layout, section 4.3): field 0 is the element count; for edge sets field 2 is
the compressed row-start array and field 3 the column-index array. -/
structure SetValue where
  len : Int
  rowStart : List Int
  colIdx : List Int
deriving DecidableEq, Repr

/-- An index set (`ir::IndexSet`).  A `Set`-backed index set carries the
runtime composite value its codegen-time expression evaluates to. -/
inductive IndexSet
  | range (size : Int)
  | set (s : SetValue)
  | single
  | dynamic
deriving DecidableEq, Repr

/-- An index domain (`ir::IndexDomain`): a product of index sets. -/
structure IndexDomain where
  indexSets : List IndexSet
deriving DecidableEq, Repr

/-- `LLVMBackend::emitComputeLen(const IndexSet&)` (lines 1326-1344):
a `Range` index set contributes its compile-time size, a `Set`-backed index
set contributes the runtime length field (field 0) of the set's composite
value; `Single` is unreachable and `Dynamic` is not supported. -/
def emitComputeLenIS : IndexSet → Except Err Int
  | .range n => .ok n
  | .set s => .ok s.len
  | .single => .error (.internal "unreachable index set kind Single")
  | .dynamic => .error (.notSupported "")

/-- `LLVMBackend::emitComputeLen(const IndexDomain&)` (lines 1315-1324):
the product of the lengths of the domain's index sets; asserts the domain
is nonempty. -/
def emitComputeLenDom (dom : IndexDomain) : Except Err Int :=
  match dom.indexSets with
  | [] => .error (.internal "assert: domain has no index sets")
  | i :: rest => do
      let first ← emitComputeLenIS i
      rest.foldlM (fun acc is => do
        let l ← emitComputeLenIS is
        pure (acc * l)) first

/-- Tensor types (`ir::TensorType`).  `dimensions` are the tensor's index
domains (`getDimensions()`); `blockDims` are the dimensions of the tensor's
block type (`getBlockType()`, derived outside this translation unit, so it
is carried as a field here; `blockDims = []` means the block is scalar). -/
structure TensorType where
  componentKind : ScalarKind
  dimensions : List IndexDomain
  blockDims : List IndexDomain
  isColumnVector : Bool
deriving DecidableEq, Repr

/-- `TensorType::order()`: the number of dimensions. -/
def TensorType.order (t : TensorType) : Nat := t.dimensions.length

/-- `TensorType::getBlockType()`: the tensor type of one block; blocks are
never themselves block structured. -/
def TensorType.blockType (t : TensorType) : TensorType :=
  ⟨t.componentKind, t.blockDims, [], false⟩

/-- `ir::isScalar` on a tensor type: order 0. -/
def isScalarT (t : TensorType) : Bool := t.order == 0

/-- Tensor storage (`ir::TensorStorage`).  For `SystemReduced` the target
and storage set expressions are represented by the runtime composite values
they compile to. -/
inductive TensorStorage
  | denseRowMajor
  | systemReduced (targetSet storageSet : SetValue)
  | systemDiagonal
  | systemNone
  | undefined
deriving DecidableEq, Repr

/-- Denotation of `CreateInBoundsGEP` followed by a load: read the array at
the given offset.  An out-of-range offset would be undefined behaviour at
runtime; it is fixed to 0 here (all claims about this value stay in
bounds). -/
def loadIdx (a : List Int) (i : Int) : Int := a.getD i.toNat 0

/-- The dense-row-major arm of `emitComputeLen` (lines 1255-1261): the
product of the per-dimension lengths; the backend dereferences the first
dimension unconditionally, so an empty dimension list is an internal
error (unreachable: the order-0 case returns earlier). -/
def denseLenOf (dims : List IndexDomain) : Except Err Int :=
  match dims with
  | [] => .error (.internal "no dimensions")
  | d :: rest => do
      let first ← emitComputeLenDom d
      rest.foldlM (fun acc dd => do
        let l ← emitComputeLenDom dd
        pure (acc * l)) first

/-- `emitComputeLen(tensorType, TensorStorage::DenseRowMajor)`, split out so
that the block-size computations inside the sparse storage cases do not make
`emitComputeLen` recursive (a block type is never itself block
structured). -/
def emitComputeLenDense (t : TensorType) : Except Err Int :=
  if t.order = 0 then .ok 1 else denseLenOf t.dimensions

/-- `LLVMBackend::emitComputeLen(const TensorType*, const TensorStorage&)`
(lines 1245-1313).  Order-0 tensors have length 1.  `DenseRowMajor` is the
product of dimension lengths.  `SystemReduced` extracts the storage set's
length field (field 0), extracts the target set's row-start array
(field 2), loads the row-start slot at that index, and multiplies by the
dense length of the block type when the block is not scalar.
`SystemDiagonal` multiplies the first outer dimension's length by the dense
block length.  `SystemNone` and `Undefined` are fatal internal errors. -/
def emitComputeLen (t : TensorType) (ts : TensorStorage) : Except Err Int :=
  if t.order = 0 then .ok 1
  else
    match ts with
    | .denseRowMajor => denseLenOf t.dimensions
    | .systemReduced targetSet storageSet =>
        let setSize := storageSet.len
        let len := loadIdx targetSet.rowStart setSize
        if isScalarT t.blockType then .ok len
        else (emitComputeLenDense t.blockType).map (fun blockSize => len * blockSize)
    | .systemDiagonal =>
        match t.dimensions with
        | [] => .error (.internal "assert: no dimensions")
        | d :: _ =>
            match d.indexSets with
            | [] => .error (.internal "assert: outer dimension empty")
            | is0 :: _ => do
                let outerLen ← emitComputeLenIS is0
                let blockLen ← emitComputeLenDense t.blockType
                pure (outerLen * blockLen)
    | .systemNone =>
        .error (.internal "Attempting to compute size of tensor without storage")
    | .undefined =>
        .error (.internal "Attempting to compute size of tensor with undefined storage")

/-- `emitComputeLen` on a dense tensor agrees with the split-out dense
helper. -/
theorem emitComputeLen_denseRowMajor (t : TensorType) :
    emitComputeLen t .denseRowMajor = emitComputeLenDense t := by
  unfold emitComputeLen emitComputeLenDense
  by_cases h : t.order = 0 <;> simp [h]

/-- C1: for every tensor with `SystemReduced` storage, the length computed
by `emitComputeLen` is the value loaded from the target set's row-start
(compressed-index) array at the index equal to the storage set's length
field, multiplied by the flattened dense size of the block type (which is 1
when the block is scalar). -/
theorem emitComputeLen_systemReduced (t : TensorType) (target storageS : SetValue)
    (hord : t.order ≠ 0) (blockSize : Int)
    (hblock : emitComputeLenDense t.blockType = .ok blockSize) :
    emitComputeLen t (.systemReduced target storageS) =
      .ok (loadIdx target.rowStart storageS.len * blockSize) := by
  unfold emitComputeLen
  rw [if_neg hord]
  by_cases hs : isScalarT t.blockType
  · have hb0 : t.blockType.order = 0 := by simpa [isScalarT] using hs
    unfold emitComputeLenDense at hblock
    rw [if_pos hb0] at hblock
    injection hblock with h
    simp [hs, ← h]
  · simp [hs, hblock, Except.map]

/-- C1 witness: a target set with row-start array `[0,2,5,5,8]`, a storage
set of length 4, and a scalar block give length 8. -/
theorem emitComputeLen_systemReduced_example :
    emitComputeLen ⟨.int, [⟨[.range 4]⟩], [], false⟩
        (.systemReduced ⟨4, [0, 2, 5, 5, 8], []⟩ ⟨4, [], []⟩) = .ok 8 :=
  (emitComputeLen_systemReduced ⟨.int, [⟨[.range 4]⟩], [], false⟩
        ⟨4, [0, 2, 5, 5, 8], []⟩ ⟨4, [], []⟩ (by decide) 1 rfl).trans (by decide)

@[simp] theorem except_bind_ok {ε α β : Type} (a : α) (f : α → Except ε β) :
    (Except.ok a >>= f : Except ε β) = f a := rfl

@[simp] theorem except_bind_error {ε α β : Type} (e : ε) (f : α → Except ε β) :
    ((Except.error e : Except ε α) >>= f : Except ε β) = .error e := rfl

@[simp] theorem except_map_ok {ε α β : Type} (f : α → β) (a : α) :
    ((Except.ok a : Except ε α).map f) = .ok (f a) := rfl

@[simp] theorem except_map_error {ε α β : Type} (f : α → β) (e : ε) :
    ((Except.error e : Except ε α).map f) = (.error e : Except ε β) := rfl

@[simp] theorem except_pure_def {ε α : Type} (a : α) :
    (pure a : Except ε α) = .ok a := rfl

/-- One entry of the buffer registry (`LLVMBackend::buffers`): a tensor
variable that `makeGlobalTensor` (lines 1516-1535) bound to an indirect
global buffer slot during the single lowering pass, with its type and
storage annotation. -/
structure BufEntry where
  varId : Nat
  slot : Nat
  ttype : TensorType
  tstorage : TensorStorage
deriving DecidableEq, Repr

/-- Instructions emitted by the generated lifecycle functions.
`allocSlot slot size` is the `malloc(size)` call whose (bitcast) result is
stored into the registry slot; `freeSlot slot` is the load of the slot
followed by the `free` call. -/
inductive LifecycleInstr
  | allocSlot (slot : Nat) (size : Int)
  | freeSlot (slot : Nat)
deriving DecidableEq, Repr

/-- The body of the generated `init` function (lines 160-180): for every
registry entry, compute the tensor's length via `emitComputeLen`, multiply
by the component size, call `malloc`, and store the pointer into the
slot. -/
def emitInitFunc (cfg : Config) : List BufEntry → Except Err (List LifecycleInstr)
  | [] => .ok []
  | b :: rest => do
      let len ← emitComputeLen b.ttype b.tstorage
      let size := len * ScalarKind.bytes cfg b.ttype.componentKind
      let restInstrs ← emitInitFunc cfg rest
      pure (LifecycleInstr.allocSlot b.slot size :: restInstrs)

/-- The body of the generated `deinit` function (lines 184-197): for every
registry entry, load the stored pointer and `free` it. -/
def emitDeinitFunc (buffers : List BufEntry) : List LifecycleInstr :=
  buffers.map (fun b => .freeSlot b.slot)

/-- The slots allocated by an instruction sequence. -/
def allocatedSlots (instrs : List LifecycleInstr) : List Nat :=
  instrs.filterMap (fun i => match i with
    | .allocSlot s _ => some s
    | _ => none)

/-- The slots freed by an instruction sequence. -/
def freedSlots (instrs : List LifecycleInstr) : List Nat :=
  instrs.filterMap (fun i => match i with
    | .freeSlot s => some s
    | _ => none)

/-- C2: the slots allocated by the generated `init` function and the slots
freed by the generated `deinit` function are both exactly the slots of the
buffer registry, in registry order (hence each registered slot is visited
exactly once by each and no other slot is touched), and every registered
entry is allocated with size `length * componentSize`. -/
theorem init_deinit_lockstep (cfg : Config) (buffers : List BufEntry)
    (instrs : List LifecycleInstr)
    (hinit : emitInitFunc cfg buffers = .ok instrs) :
    allocatedSlots instrs = buffers.map (fun b => b.slot) ∧
    freedSlots (emitDeinitFunc buffers) = buffers.map (fun b => b.slot) ∧
    ∀ b ∈ buffers, ∃ len, emitComputeLen b.ttype b.tstorage = .ok len ∧
      LifecycleInstr.allocSlot b.slot
        (len * ScalarKind.bytes cfg b.ttype.componentKind) ∈ instrs := by
  induction buffers generalizing instrs with
  | nil =>
      simp [emitInitFunc] at hinit
      subst hinit
      simp [allocatedSlots, freedSlots, emitDeinitFunc]
  | cons b rest ih =>
      rw [emitInitFunc] at hinit
      rcases hfb : emitComputeLen b.ttype b.tstorage with e | len
      · simp [hfb] at hinit
      · rcases hrest : emitInitFunc cfg rest with e' | restInstrs
        · simp [hfb, hrest] at hinit
        · simp [hfb, hrest] at hinit
          subst hinit
          obtain ⟨h1, h2, h3⟩ := ih restInstrs hrest
          refine ⟨?_, ?_, ?_⟩
          · simp [allocatedSlots, List.filterMap_cons] at h1 ⊢
            exact h1
          · simp [freedSlots, emitDeinitFunc, List.filterMap_cons] at h2 ⊢
            exact h2
          · intro b' hb'
            rcases List.mem_cons.mp hb' with hb' | hb'
            · subst hb'
              exact ⟨len, hfb, List.mem_cons_self _ _⟩
            · obtain ⟨len', hlen', hmem⟩ := h3 b' hb'
              exact ⟨len', hlen', List.mem_cons_of_mem _ hmem⟩

/-- A 3x3 dense tensor of 4-byte int components. -/
def t33 : TensorType := ⟨.int, [⟨[.range 3]⟩, ⟨[.range 3]⟩], [], false⟩

/-- Single-float (4-byte) configuration. -/
def cfg32 : Config := ⟨4⟩

/-- C2 witness: a registry with one 3x3 int tensor entry is allocated once
(36 bytes) and freed once, at the same slot. -/
theorem init_deinit_lockstep_example :
    allocatedSlots [LifecycleInstr.allocSlot 0 36] = [0] ∧
    freedSlots (emitDeinitFunc [⟨5, 0, t33, .denseRowMajor⟩]) = [0] ∧
    ∀ b ∈ [(⟨5, 0, t33, .denseRowMajor⟩ : BufEntry)],
      ∃ len, emitComputeLen b.ttype b.tstorage = .ok len ∧
        LifecycleInstr.allocSlot b.slot
          (len * ScalarKind.bytes cfg32 b.ttype.componentKind) ∈
            [LifecycleInstr.allocSlot 0 36] :=
  init_deinit_lockstep cfg32 [⟨5, 0, t33, .denseRowMajor⟩]
    [LifecycleInstr.allocSlot 0 36] (by decide)

/-- Scalar literal payloads as stored in `ir::Literal::data`.  An int
literal stores a 4-byte two's-complement int and a boolean literal one
byte; a float literal stores the IEEE-754 bit pattern of the active float
width, carried here as that pattern (`floatBits`), because the test at
lines 1487-1488 reads the literal's byte buffer, not its mathematical
value. -/
inductive ScalarValue
  | intV (n : Int)
  | floatV (floatBits : Nat)
  | boolV (b : Bool)
deriving DecidableEq, Repr

/-- The literal's data buffer as a little-endian bit pattern
(`ir::Literal::data`).  Bytes read past the end of the buffer (the 8-byte
float reinterpretation of a 4-byte int buffer, undefined behaviour in the
source) are modelled as zero. -/
def ScalarValue.dataBits : ScalarValue → Nat
  | .intV n => (n % 2 ^ 32).toNat
  | .floatV bits => bits
  | .boolV b => if b then 1 else 0

/-- `((int*)data)[0]` (line 1488): the first four bytes of the literal's
buffer read as a 32-bit word, regardless of the literal's kind. -/
def intWordRead (bits : Nat) : Nat := bits % 2 ^ 32

/-- `getFloatVal(0) == 0.0` (line 1487): the first `floatBytes` bytes of
the buffer reinterpreted as an IEEE-754 float of the active width compare
equal to 0.0.  An IEEE float compares equal to 0.0 exactly when every bit
below the sign bit is clear (the pattern is +0.0 or -0.0), so this is a
pure bit predicate; no further floating-point semantics is involved. -/
def floatReadIsZero (cfg : Config) (bits : Nat) : Bool :=
  bits % 2 ^ (8 * cfg.floatBytes.toNat) % 2 ^ (8 * cfg.floatBytes.toNat - 1) == 0

/-- The assigned expression, as far as `emitAssign` inspects it: its tensor
type and whether it is a `Literal` (in which case its scalar payload is
carried). -/
inductive ExprM
  | lit (ttype : TensorType) (data : ScalarValue)
  | nonlit (ttype : TensorType)
deriving DecidableEq, Repr

/-- `Expr::type()`. -/
def ExprM.type : ExprM → TensorType
  | .lit t _ => t
  | .nonlit t => t

/-- The test at lines 1487-1488:
`isa<Literal>(value) && (getFloatVal(0) == 0.0 || ((int*)data)[0] == 0)`.
Both disjuncts are kind-blind reinterpretations of the literal's data
buffer: the float read of the active width compared with 0.0, or the first
32-bit word compared with 0.  In particular a nonzero double whose low
word is zero (1.0, 2.0, 0.5, ...) passes this test. -/
def literalIsZero (cfg : Config) : ExprM → Bool
  | .lit _ v => floatReadIsZero cfg v.dataBits || (intWordRead v.dataBits == 0)
  | .nonlit _ => false

/-- A variable as `emitAssign` sees it: identity plus type. -/
structure VarM where
  id : Nat
  ttype : TensorType
deriving DecidableEq, Repr

/-- Destination-side instructions emitted by `emitAssign` and
`compile(VarExpr)`.  The compilation of the assigned value, whatever it
emits, is abstracted as the single marker `evalValue`;
`loadGlobalSlot v` is the load of variable `v`'s doubly-indirected global
slot; `loadScalarVal` is the extra load of a stack-kept scalar. -/
inductive Instr
  | evalValue
  | loadGlobalSlot (v : Nat)
  | loadScalarVal
  | storeScalar
  | memsetZero (size : Int)
  | memcpyBytes (size : Int)
deriving DecidableEq, Repr

/-- `LLVMBackend::emitAssign` (lines 1449-1504), reified as the sequence of
destination-side instructions it emits.  The value is compiled first; a
global destination's doubly-indirected slot is loaded once; then
scalar := scalar is a direct store; for non-scalar destinations the length
is computed via `emitComputeLen` and multiplied by the component size,
tensor := scalar is a zero-fill of that many bytes when the value is a
literal passing the byte-level zero test of lines 1487-1488 and a
reportable error otherwise, and tensor := tensor is a byte-exact copy of
that many bytes after an exact type-equality assert. -/
def emitAssign (cfg : Config) (globals : List Nat) (storageOf : TensorStorage)
    (var : VarM) (value : ExprM) : Except Err (List Instr) :=
  let pre := [Instr.evalValue]
  let deref := if var.id ∈ globals then [Instr.loadGlobalSlot var.id] else []
  let varType := var.ttype
  let valType := value.type
  if varType.order = 0 ∧ valType.order = 0 then
    .ok (pre ++ deref ++ [Instr.storeScalar])
  else do
    let len ← emitComputeLen varType storageOf
    let size := len * ScalarKind.bytes cfg varType.componentKind
    if 0 < varType.order ∧ valType.order = 0 then
      if literalIsZero cfg value then
        .ok (pre ++ deref ++ [Instr.memsetZero size])
      else
        .error (.notSupported
          "you can only currently assign a scalar to a tensor if the scalar is 0.")
    else
      if varType = valType then
        .ok (pre ++ deref ++ [Instr.memcpyBytes size])
      else
        .error (.internal "variable and value types don't match")

/-- C3: the claim fails on the code.  In double-precision mode the nonzero
float literal 1.0 (IEEE-754 bits 0x3FF0000000000000, whose low 32-bit word
is zero) passes the byte-level zero test of lines 1487-1488, so
`emitAssign` silently zero-fills the destination tensor (72 bytes for a
3x3 tensor of doubles) instead of reporting the "not supported" error the
claim requires for every scalar other than the literal zero.  The
literal-zero half of the claim does hold: the int literal 0 zero-fills a
3x3 4-byte-int tensor over exactly 36 bytes with no scalar store. -/
theorem emitAssign_scalar_to_tensor_code_bug :
    literalIsZero ⟨8⟩
      (.lit ⟨.float, [], [], false⟩ (.floatV 0x3FF0000000000000)) = true ∧
    emitAssign ⟨8⟩ [] .denseRowMajor
        ⟨0, ⟨.float, [⟨[.range 3]⟩, ⟨[.range 3]⟩], [], false⟩⟩
        (.lit ⟨.float, [], [], false⟩ (.floatV 0x3FF0000000000000)) =
      .ok [Instr.evalValue, Instr.memsetZero 72] ∧
    emitAssign cfg32 [] .denseRowMajor ⟨0, t33⟩
        (.lit ⟨.int, [], [], false⟩ (.intV 0)) =
      .ok [Instr.evalValue, Instr.memsetZero 36] :=
  ⟨by decide, by decide, by decide⟩

/-- C4: assigning a tensor value to a tensor variable of a different type
is rejected as a type-mismatch error with no copy emitted; when the types
match exactly, `emitAssign` emits a byte-exact copy over
`length(varType, storage) * componentSize` bytes. -/
theorem emitAssign_tensor_to_tensor (cfg : Config) (globals : List Nat)
    (storageOf : TensorStorage) (var : VarM) (value : ExprM) (len : Int)
    (hval : 0 < value.type.order)
    (hlen : emitComputeLen var.ttype storageOf = .ok len) :
    (var.ttype ≠ value.type →
      emitAssign cfg globals storageOf var value =
        .error (.internal "variable and value types don't match")) ∧
    (var.ttype = value.type →
      emitAssign cfg globals storageOf var value =
        .ok ([Instr.evalValue] ++
          (if var.id ∈ globals then [Instr.loadGlobalSlot var.id] else []) ++
          [Instr.memcpyBytes
            (len * ScalarKind.bytes cfg var.ttype.componentKind)])) := by
  have hvo : value.type.order ≠ 0 := by omega
  have hno : ¬(var.ttype.order = 0 ∧ value.type.order = 0) := fun h => hvo h.2
  have hno2 : ¬(0 < var.ttype.order ∧ value.type.order = 0) := fun h => hvo h.2
  rw [emitAssign]
  simp only [if_neg hno, hlen, except_bind_ok, if_neg hno2]
  constructor
  · intro hne
    rw [if_neg hne]
  · intro heq
    rw [if_pos heq]

/-- C4 witness: assigning a 3x3 int tensor value to a differently-shaped
(2x2) tensor variable is a type-mismatch error; assigning it to a 3x3
variable is a 36-byte copy. -/
theorem emitAssign_tensor_to_tensor_example :
    emitAssign cfg32 [] .denseRowMajor ⟨0, ⟨.int, [⟨[.range 2]⟩, ⟨[.range 2]⟩], [], false⟩⟩
        (.nonlit t33) =
      .error (.internal "variable and value types don't match") ∧
    emitAssign cfg32 [] .denseRowMajor ⟨0, t33⟩ (.nonlit t33) =
      .ok [Instr.evalValue, Instr.memcpyBytes 36] := by
  constructor
  · exact (emitAssign_tensor_to_tensor cfg32 [] .denseRowMajor
      ⟨0, ⟨.int, [⟨[.range 2]⟩, ⟨[.range 2]⟩], [], false⟩⟩ (.nonlit t33) 4
      (by decide) (by decide)).1 (by decide)
  · exact ((emitAssign_tensor_to_tensor cfg32 [] .denseRowMajor
      ⟨0, t33⟩ (.nonlit t33) 9 (by decide) (by decide)).2 (by decide)).trans (by decide)

/-- `LLVMBackend::compile(const ir::VarExpr&)` (lines 275-297), reified as
the instructions it emits: one load of the doubly-indirected slot when the
variable is a global, then one further load when the variable is a scalar
whose handle is a pointer (stack-kept scalars). -/
def compileVarExpr (globals : List Nat) (v : VarM) (handleIsPointer : Bool) :
    List Instr :=
  (if v.id ∈ globals then [Instr.loadGlobalSlot v.id] else []) ++
  (if isScalarT v.ttype && handleIsPointer then [Instr.loadScalarVal] else [])

/-- Is this instruction the dereference of a doubly-indirected global
slot? -/
def isGlobalDeref : Instr → Bool
  | .loadGlobalSlot _ => true
  | _ => false

/-- Is this instruction a store, zero-fill or copy? -/
def isWriteInstr : Instr → Bool
  | .storeScalar => true
  | .memsetZero _ => true
  | .memcpyBytes _ => true
  | _ => false

/-- C10: for an assignment whose target variable is a global, `emitAssign`
loads the doubly-indirected global slot exactly once, before the single
store / zero-fill / copy it then performs — the same single dereference
that `compile(VarExpr)` performs on every read of a global. -/
theorem emitAssign_global_deref_once (cfg : Config) (globals : List Nat)
    (storageOf : TensorStorage) (var : VarM) (value : ExprM)
    (instrs : List Instr) (hg : var.id ∈ globals)
    (hok : emitAssign cfg globals storageOf var value = .ok instrs) :
    (∃ w, instrs = [Instr.evalValue, Instr.loadGlobalSlot var.id, w] ∧
      isWriteInstr w = true) ∧
    instrs.countP (fun i => isGlobalDeref i) = 1 ∧
    (∀ b, (compileVarExpr globals var b).countP (fun i => isGlobalDeref i) = 1) := by
  have hshape : ∃ w, instrs = [Instr.evalValue, Instr.loadGlobalSlot var.id, w] ∧
      isWriteInstr w = true := by
    rw [emitAssign] at hok
    simp only [if_pos hg] at hok
    by_cases h0 : var.ttype.order = 0 ∧ value.type.order = 0
    · rw [if_pos h0, Except.ok.injEq] at hok
      exact ⟨Instr.storeScalar, hok.symm, rfl⟩
    · rw [if_neg h0] at hok
      rcases hlen : emitComputeLen var.ttype storageOf with e | len
      · simp [hlen] at hok
      · simp only [hlen, except_bind_ok] at hok
        by_cases h1 : 0 < var.ttype.order ∧ value.type.order = 0
        · rw [if_pos h1] at hok
          rcases hz : literalIsZero cfg value with _ | _
          · simp [hz] at hok
          · rw [if_pos hz, Except.ok.injEq] at hok
            exact ⟨_, hok.symm, rfl⟩
        · rw [if_neg h1] at hok
          by_cases h2 : var.ttype = value.type
          · rw [if_pos h2, Except.ok.injEq] at hok
            exact ⟨_, hok.symm, rfl⟩
          · simp [h2] at hok
  refine ⟨hshape, ?_, ?_⟩
  · obtain ⟨w, hw, hwr⟩ := hshape
    subst hw
    rcases w with _ | v | _ | _ | s | s <;> simp_all [List.countP_cons, isGlobalDeref, isWriteInstr]
  · intro b
    rw [compileVarExpr, if_pos hg]
    rcases hb : isScalarT var.ttype && b with _ | _ <;>
      simp [hb, List.countP_cons, List.countP_append, isGlobalDeref]

/-- C10 witness: a scalar store to a global variable loads its slot once
before the store, and a read of the same global dereferences once. -/
theorem emitAssign_global_deref_once_example :
    (∃ w, [Instr.evalValue, Instr.loadGlobalSlot 7, Instr.storeScalar] =
        [Instr.evalValue, Instr.loadGlobalSlot 7, w] ∧ isWriteInstr w = true) ∧
    List.countP (fun i => isGlobalDeref i)
      [Instr.evalValue, Instr.loadGlobalSlot 7, Instr.storeScalar] = 1 ∧
    (∀ b, (compileVarExpr [7] ⟨7, ⟨.int, [], [], false⟩⟩ b).countP
      (fun i => isGlobalDeref i) = 1) :=
  emitAssign_global_deref_once cfg32 [7] .denseRowMajor ⟨7, ⟨.int, [], [], false⟩⟩
    (.lit ⟨.int, [], [], false⟩ (.intV 5))
    [Instr.evalValue, Instr.loadGlobalSlot 7, Instr.storeScalar]
    (by decide) (by decide)

/-- A runtime argument of an emitted call: either a pointer to an index
array or a scalar int value. -/
inductive CallArg
  | ptrArg (a : List Int)
  | intArg (n : Int)
deriving DecidableEq, Repr

/-- The `solve` intrinsic arm of `LLVMBackend::compile(const ir::CallStmt&)`
(lines 716-775), as the runtime-library call it emits: after the
user-visible arguments it appends, in order, the target set's row-start
array (field 2), the target set's column-index array (field 3), the row
count, the column count, the nonzero count (loaded from the row-start array
at the storage set's length field), and the block row and column sizes
(1 and 1 for a scalar block, else the flattened sizes of the block's two
leading dimensions); the callee is `cMatSolve` plus the precision
suffix. -/
def compileSolveCall (cfg : Config) (userArgs : List CallArg) (t : TensorType)
    (tstorage : TensorStorage) : Except Err (String × List CallArg) :=
  match tstorage with
  | .systemReduced targetSet storageSet => do
      let setSize := storageSet.len
      let row_start := targetSet.rowStart
      let col_idx := targetSet.colIdx
      let len := loadIdx row_start setSize
      let bsPair ←
        if ¬ (isScalarT t.blockType = true) then
          match t.blockDims with
          | b0 :: b1 :: _ => do
              let r ← emitComputeLenDom b0
              let c ← emitComputeLenDom b1
              pure (r, c)
          | _ => .error (.internal "solve assumes 2D blocks")
        else pure ((1 : Int), (1 : Int))
      let rows ←
        match t.dimensions with
        | d0 :: _ => emitComputeLenDom d0
        | _ => .error (.internal "solve operand has no dimensions")
      let cols ←
        match t.dimensions with
        | _ :: d1 :: _ => emitComputeLenDom d1
        | _ => .error (.internal "solve operand is not a matrix")
      let fname := "cMatSolve" ++ (if cfg.floatBytes = 4 then "_f32" else "_f64")
      .ok (fname, userArgs ++
        [CallArg.ptrArg row_start, CallArg.ptrArg col_idx,
         CallArg.intArg rows, CallArg.intArg cols, CallArg.intArg len,
         CallArg.intArg bsPair.1, CallArg.intArg bsPair.2])
  | _ => .error (.internal "solve operand storage is not SystemReduced")

/-- C5: a lowered solve call on a `SystemReduced` operand calls
`cMatSolve_f32`/`cMatSolve_f64` with, appended after the user-visible
arguments and in this order: the target set's row-start array, its
column-index array, the row count, the column count, the nonzero count
loaded from the row-start array at the storage set's length, and the block
row and column sizes (both 1 for a scalar block, else the flattened sizes
of the block's two leading dimensions). -/
theorem compileSolveCall_args (cfg : Config) (userArgs : List CallArg)
    (t : TensorType) (target storageS : SetValue)
    (d0 d1 : IndexDomain) (ds : List IndexDomain) (rows cols bsr bsc : Int)
    (hdims : t.dimensions = d0 :: d1 :: ds)
    (hrows : emitComputeLenDom d0 = .ok rows)
    (hcols : emitComputeLenDom d1 = .ok cols)
    (hblock : (t.blockDims = [] ∧ bsr = 1 ∧ bsc = 1) ∨
      (∃ b0 b1 bs, t.blockDims = b0 :: b1 :: bs ∧
        emitComputeLenDom b0 = .ok bsr ∧ emitComputeLenDom b1 = .ok bsc)) :
    compileSolveCall cfg userArgs t (.systemReduced target storageS) =
      .ok ("cMatSolve" ++ (if cfg.floatBytes = 4 then "_f32" else "_f64"),
        userArgs ++
          [CallArg.ptrArg target.rowStart, CallArg.ptrArg target.colIdx,
           CallArg.intArg rows, CallArg.intArg cols,
           CallArg.intArg (loadIdx target.rowStart storageS.len),
           CallArg.intArg bsr, CallArg.intArg bsc]) := by
  rw [compileSolveCall]
  rcases hblock with ⟨hb, hr, hc⟩ | ⟨b0, b1, bs, hb, hr, hc⟩
  · subst hr
    subst hc
    have hsc : isScalarT t.blockType = true := by
      simp [isScalarT, TensorType.blockType, TensorType.order, hb]
    rw [if_neg (by simp [hsc])]
    simp only [except_pure_def, except_bind_ok, hdims, hrows, hcols]
  · have hsc : ¬ (isScalarT t.blockType = true) := by
      simp [isScalarT, TensorType.blockType, TensorType.order, hb]
    rw [if_pos hsc, hb]
    simp only [hr, hc, except_bind_ok, except_pure_def, hdims, hrows, hcols]

/-- C5 witness: a 4x4 scalar-block system matrix over a target set with
row-start `[0,2,5,5,8]` and a storage set of length 4 appends the two index
arrays, rows 4, columns 4, nonzero count 8 and block sizes 1, 1, calling
`cMatSolve_f32`. -/
theorem compileSolveCall_args_example :
    compileSolveCall cfg32 [CallArg.ptrArg [9, 9]]
        ⟨.float, [⟨[.range 4]⟩, ⟨[.range 4]⟩], [], false⟩
        (.systemReduced ⟨4, [0, 2, 5, 5, 8], [1, 3, 0, 2, 3, 0, 1, 2]⟩ ⟨4, [], []⟩) =
      .ok ("cMatSolve_f32",
        [CallArg.ptrArg [9, 9],
         CallArg.ptrArg [0, 2, 5, 5, 8], CallArg.ptrArg [1, 3, 0, 2, 3, 0, 1, 2],
         CallArg.intArg 4, CallArg.intArg 4, CallArg.intArg 8,
         CallArg.intArg 1, CallArg.intArg 1]) := by
  have h := compileSolveCall_args cfg32 [CallArg.ptrArg [9, 9]]
    ⟨.float, [⟨[.range 4]⟩, ⟨[.range 4]⟩], [], false⟩
    ⟨4, [0, 2, 5, 5, 8], [1, 3, 0, 2, 3, 0, 1, 2]⟩ ⟨4, [], []⟩
    ⟨[.range 4]⟩ ⟨[.range 4]⟩ [] 4 4 1 1 rfl (by decide) (by decide)
    (Or.inl ⟨rfl, rfl, rfl⟩)
  exact h.trans (by decide)

/-- `LLVMBackend::compile(const ir::While&)` (lines 1040-1072), as the
runtime behaviour of the emitted control-flow graph over an abstract state
type.  `cond` is the lowered condition (one evaluation returns the decision
and the state after the condition's side effects); `body` is the lowered
body.  The entry block evaluates the condition once and branches either to
the body or to the exit; the check block after the body re-lowers and
re-evaluates the condition to decide whether to branch back to the body.
`whileCheckLoop` runs from the body block; results carry the final state,
the number of body executions, and the number of condition evaluations;
`none` means the fuel ran out. -/
def whileCheckLoop {St : Type} (cond : St → Bool × St) (body : St → St) :
    Nat → St → Option (St × Nat × Nat)
  | 0, _ => none
  | fuel + 1, s =>
      let r1 := cond (body s)
      if r1.1 then
        (whileCheckLoop cond body fuel r1.2).map (fun r => (r.1, r.2.1 + 1, r.2.2 + 1))
      else
        some (r1.2, 1, 1)

/-- Entry of the emitted `While` graph: evaluate the condition once; if it
is false, exit with zero body executions. -/
def whileRun {St : Type} (cond : St → Bool × St) (body : St → St)
    (fuel : Nat) (s : St) : Option (St × Nat × Nat) :=
  let r1 := cond s
  if r1.1 then
    (whileCheckLoop cond body fuel r1.2).map (fun r => (r.1, r.2.1, r.2.2 + 1))
  else
    some (r1.2, 0, 1)

theorem whileCheckLoop_counts {St : Type} (cond : St → Bool × St) (body : St → St) :
    ∀ (fuel : Nat) (s sf : St) (nb nc : Nat),
      whileCheckLoop cond body fuel s = some (sf, nb, nc) → nc = nb ∧ 1 ≤ nb := by
  intro fuel
  induction fuel with
  | zero => intro s sf nb nc h; exact absurd h (by simp [whileCheckLoop])
  | succ fuel ih =>
      intro s sf nb nc h
      rw [whileCheckLoop] at h
      rcases hc : cond (body s) with ⟨b, s2⟩
      simp only [hc] at h
      cases b with
      | false =>
          rw [if_neg Bool.false_ne_true, Option.some.injEq,
            Prod.mk.injEq, Prod.mk.injEq] at h
          obtain ⟨-, h2, h3⟩ := h
          omega
      | true =>
          rw [if_pos rfl, Option.map_eq_some'] at h
          obtain ⟨⟨sf', nb', nc'⟩, hrec, heq⟩ := h
          obtain ⟨h1, h2⟩ := ih _ _ _ _ hrec
          simp only [Prod.mk.injEq] at heq
          obtain ⟨-, h3, h4⟩ := heq
          omega

/-- C6: in the emitted `While` graph the condition is evaluated once before
the body can run and re-evaluated after every body execution, so a
terminating run with `nb` body executions evaluates the condition (and its
side effects) exactly `nb + 1` times; a condition false on first test gives
zero body executions, and a body that flips the condition from true to
false on its first pass runs exactly once. -/
theorem whileRun_cond_evals {St : Type} (cond : St → Bool × St) (body : St → St)
    (fuel : Nat) (s sf : St) (nb nc : Nat)
    (h : whileRun cond body fuel s = some (sf, nb, nc)) :
    nc = nb + 1 ∧
    ((cond s).1 = false → nb = 0) ∧
    ((cond s).1 = true → (cond (body (cond s).2)).1 = false → nb = 1) := by
  rw [whileRun] at h
  rcases hc : cond s with ⟨b, s1⟩
  simp only [hc] at h
  cases b with
  | false =>
      rw [if_neg Bool.false_ne_true, Option.some.injEq,
        Prod.mk.injEq, Prod.mk.injEq] at h
      obtain ⟨-, h2, h3⟩ := h
      exact ⟨by omega, fun _ => by omega, fun htrue _ => absurd htrue (by simp)⟩
  | true =>
      rw [if_pos rfl, Option.map_eq_some'] at h
      obtain ⟨⟨sf', nb', nc'⟩, hrec, heq⟩ := h
      obtain ⟨h1, h2⟩ := whileCheckLoop_counts cond body fuel s1 sf' nb' nc' hrec
      simp only [Prod.mk.injEq] at heq
      obtain ⟨-, h3, h4⟩ := heq
      refine ⟨by omega, fun hfalse => absurd hfalse (by simp), fun _ hflip => ?_⟩
      simp only at hflip
      cases fuel with
      | zero => exact absurd hrec (by simp [whileCheckLoop])
      | succ fuel =>
          rw [whileCheckLoop] at hrec
          rcases hc2 : cond (body s1) with ⟨b2, s2⟩
          simp only [hc2] at hrec hflip
          subst hflip
          rw [if_neg Bool.false_ne_true, Option.some.injEq,
            Prod.mk.injEq, Prod.mk.injEq] at hrec
          obtain ⟨-, h5, h6⟩ := hrec
          omega

/-- C6 witness: with state a counter, condition `s < 1` and body `s + 1`,
the body flips the condition on its first pass: one body execution, two
condition evaluations. -/
theorem whileRun_cond_evals_example :
    2 = 1 + 1 ∧
    (((fun s => (decide (s < 1), s)) (0 : Nat)).1 = false → 1 = 0) ∧
    (((fun s => (decide (s < 1), s)) (0 : Nat)).1 = true →
      ((fun s => (decide (s < 1), s))
        ((fun s => s + 1) ((fun s => (decide (s < 1), s)) (0 : Nat)).2)).1 = false →
      1 = 1) :=
  whileRun_cond_evals (fun s => (decide (s < 1), s)) (fun s => s + 1) 5 0 1 1 2 rfl

/-- `ir::ForDomain` kinds. -/
inductive ForDomain
  | indexSet (is : IndexSet)
  | endpoints
  | edges
  | neighborsOf
  | neighbors
  | diagonal
deriving DecidableEq, Repr

/-- The trip-count computation of `LLVMBackend::compile(const ir::For&)`
(lines 981-1005): only the `IndexSet` domain kind produces a count (the
length of the index set); every other kind is `not_supported_yet`. -/
def compileForDomainNum : ForDomain → Except Err Int
  | .indexSet is => emitComputeLenIS is
  | .endpoints => .error (.notSupported "")
  | .edges => .error (.notSupported "")
  | .neighborsOf => .error (.notSupported "")
  | .neighbors => .error (.notSupported "")
  | .diagonal => .error (.notSupported "")

/-- C7: lowering a `For` loop computes a trip count only for the `IndexSet`
domain kind (the length of the index set); `Endpoints`, `Edges`,
`NeighborsOf`, `Neighbors` and `Diagonal` all fail with an error rather
than producing code. -/
theorem forDomain_only_indexSet :
    (∀ is, compileForDomainNum (.indexSet is) = emitComputeLenIS is) ∧
    (∀ d : ForDomain, (∀ is, d ≠ .indexSet is) →
      compileForDomainNum d = .error (.notSupported "")) ∧
    (∀ (d : ForDomain) (n : Int), compileForDomainNum d = .ok n →
      ∃ is, d = .indexSet is ∧ emitComputeLenIS is = .ok n) := by
  refine ⟨fun is => rfl, ?_, ?_⟩
  · intro d hne
    cases d with
    | indexSet is => exact absurd rfl (hne is)
    | endpoints => rfl
    | edges => rfl
    | neighborsOf => rfl
    | neighbors => rfl
    | diagonal => rfl
  · intro d n h
    cases d with
    | indexSet is => exact ⟨is, rfl, h⟩
    | endpoints => exact absurd h (by simp [compileForDomainNum])
    | edges => exact absurd h (by simp [compileForDomainNum])
    | neighborsOf => exact absurd h (by simp [compileForDomainNum])
    | neighbors => exact absurd h (by simp [compileForDomainNum])
    | diagonal => exact absurd h (by simp [compileForDomainNum])

/-- C7 witness: the `Edges` domain kind fails loudly. -/
theorem forDomain_only_indexSet_example :
    compileForDomainNum .edges = .error (.notSupported "") :=
  forDomain_only_indexSet.2.1 ForDomain.edges (fun _ h => ForDomain.noConfusion h)

/-- The dynamic-dimension fallback print loop of
`LLVMBackend::compile(const ir::Print&)` (lines 1094-1128), as the list of
element indices whose loads it emits at runtime, given the runtime total
element length `len` (the loop bound is `rangeEnd = len - 1`).  Control
branches unconditionally into the loop body (`CreateBr(loopBodyStart)`);
the body prints the element at the current index; after the body `iNext`
is compared against `rangeEnd` (`iNext < rangeEnd`) to decide whether to
loop back; after the loop one further element, at `iNext`, is printed. -/
def printDynAux (len : Int) (i : Int) : List Int :=
  i :: (if i + 1 < len - 1 then printDynAux len (i + 1) else [i + 1])
termination_by (len - 1 - i).toNat
decreasing_by
  simp_wf
  omega

/-- The reads of the dynamic print loop from loop entry (index 0). -/
def printDynLoopReads (len : Int) : List Int := printDynAux len 0

/-- C9: the fallback print loop is not pre-tested: it always reads index 0
first and always reads at least two indices, whatever the runtime length;
when the total element count is below two, some index read is `≥ len`,
i.e. past the end of the tensor's buffer. -/
theorem printDynLoop_reads (len : Int) :
    2 ≤ (printDynLoopReads len).length ∧
    (printDynLoopReads len).head? = some 0 ∧
    (len < 2 → ∃ i ∈ printDynLoopReads len, len ≤ i) := by
  have hcons : ∀ (l i : Int), ∃ t, printDynAux l i = i :: t ∧ t ≠ [] := by
    intro l i
    rw [printDynAux]
    by_cases h : i + 1 < l - 1
    · rw [if_pos h]
      refine ⟨_, rfl, ?_⟩
      rw [printDynAux]
      exact List.cons_ne_nil _ _
    · rw [if_neg h]
      exact ⟨[i + 1], rfl, List.cons_ne_nil _ _⟩
  obtain ⟨t, ht, htne⟩ := hcons len 0
  have hlow : len < 2 → printDynLoopReads len = [0, 1] := by
    intro hl
    rw [printDynLoopReads, printDynAux, if_neg (by omega)]
    norm_num
  refine ⟨?_, ?_, ?_⟩
  · rw [printDynLoopReads, ht]
    have := List.length_pos.mpr htne
    simp only [List.length_cons]
    omega
  · rw [printDynLoopReads, ht]
    rfl
  · intro hl
    refine ⟨1, ?_, by omega⟩
    rw [hlow hl]
    simp

/-- C9 witness: at runtime length 1 the loop reads two indices, the first
is 0, and index 1 is past the end of the one-element buffer. -/
theorem printDynLoop_reads_example :
    2 ≤ (printDynLoopReads 1).length ∧
    (printDynLoopReads 1).head? = some 0 ∧
    ((1 : Int) < 2 → ∃ i ∈ printDynLoopReads 1, (1 : Int) ≤ i) :=
  printDynLoop_reads 1

/-- `%f` for floats, `%d` otherwise (line 1087). -/
def specifierFor (k : ScalarKind) : String :=
  if k = ScalarKind.float then "%f" else "%d"

/-- Is this a `Set`-backed index set (the scan at lines 1094-1096 that
selects the dynamic print path)? -/
def IndexSet.isSetBacked : IndexSet → Bool
  | .set _ => true
  | _ => false

/-- Does some dimension of the tensor contain a `Set`-backed index set? -/
def tensorHasSetDim (t : TensorType) : Bool :=
  t.dimensions.any (fun d => d.indexSets.any IndexSet.isSetBacked)

/-- `IndexSet::getSize()`: only `Range` index sets have a static size. -/
def IndexSet.staticSize : IndexSet → Except Err Int
  | .range n => .ok n
  | _ => .error (.internal "getSize of a non-static index set")

/-- `IndexDomain::getSize()`: the product of the index set sizes. -/
def IndexDomain.staticSize (d : IndexDomain) : Except Err Int :=
  match d.indexSets with
  | [] => .error (.internal "assert: domain has no index sets")
  | i :: rest => do
      let first ← i.staticSize
      rest.foldlM (fun acc is => do
        let l ← is.staticSize
        pure (acc * l)) first

/-- `TensorType::size()`: the product of all dimension sizes. -/
def TensorType.staticSize (t : TensorType) : Except Err Int :=
  t.dimensions.foldlM (fun acc d => do
    let l ← d.staticSize
    pure (acc * l)) 1

/-- The format-building loop at lines 1136-1141: for each element of the
order-1 static tensor, append the specifier-plus-delimiter block to the
format string (represented as a character list). -/
def buildFormatLoop (block : List Char) : Nat → List Char
  | 0 => []
  | n + 1 => buildFormatLoop block n ++ block

/-- `format.back() = '\n'` (line 1142): replace the last character of the
format with a newline. -/
def setLastToNewline (cs : List Char) : List Char :=
  cs.dropLast ++ ['\n']

/-- The denotation of `emitPrintf` (lines 1419-1447) specialized to `%d`
conversions: printf renders the format, consuming one argument per `%d`
and copying every other character verbatim. -/
def renderFormat : List Char → List Int → List Char
  | [], _ => []
  | '%' :: 'd' :: rest, a :: as => (toString a).toList ++ renderFormat rest as
  | c :: rest, args => c :: renderFormat rest args

/-- A format character other than `%` is copied verbatim. -/
theorem renderFormat_cons_ne (c : Char) (hc : c ≠ '%') (rest : List Char)
    (args : List Int) :
    renderFormat (c :: rest) args = c :: renderFormat rest args := by
  rw [renderFormat.eq_def]
  split
  · simp_all
  · rename_i heq
    rw [List.cons.injEq] at heq
    exact absurd heq.1 hc
  · rename_i heq h2
    rw [List.cons.injEq] at heq
    obtain ⟨rfl, rfl⟩ := heq
    rfl

/-- The order-1 all-static-dimensions arm of
`LLVMBackend::compile(const ir::Print&)` (lines 1132-1142) composed with
the printf denotation: build a single format string with one specifier
plus delimiter per element (delimiter `\n` for a column vector, space
otherwise), replace the final delimiter with a newline, load every element
as an argument, and render.  `data` is the runtime contents of the printed
tensor's buffer. -/
def printStaticOrder1 (t : TensorType) (data : List Int) : Except Err (List Char) :=
  if tensorHasSetDim t then
    .error (.internal "dynamic-dimension print is handled by the print loop")
  else if t.order = 1 then do
    let spec := specifierFor t.componentKind
    let delim := if t.isColumnVector then "\n" else " "
    let size ← t.staticSize
    let fmt := setLastToNewline (buildFormatLoop (spec ++ delim).toList size.toNat)
    let args := (List.range size.toNat).map (fun i => data.getD i 0)
    .ok (renderFormat fmt args)
  else .error (.internal "not the order-1 print arm")

theorem buildFormatLoop_succ_front (block : List Char) (n : Nat) :
    buildFormatLoop block (n + 1) = block ++ buildFormatLoop block n := by
  induction n with
  | zero => simp [buildFormatLoop]
  | succ n ih =>
      calc buildFormatLoop block (n + 1 + 1)
          = buildFormatLoop block (n + 1) ++ block := rfl
        _ = (block ++ buildFormatLoop block n) ++ block := by rw [ih]
        _ = block ++ (buildFormatLoop block n ++ block) := by rw [List.append_assoc]
        _ = block ++ buildFormatLoop block (n + 1) := rfl

theorem renderFormat_blocks (dc : Char) (hdc : dc ≠ '%') :
    ∀ (data : List Int) (tail : List Char) (args2 : List Int),
      renderFormat (buildFormatLoop ['%', 'd', dc] data.length ++ tail) (data ++ args2) =
        (data.map (fun a => (toString a).toList ++ [dc])).flatten ++
          renderFormat tail args2 := by
  intro data
  induction data with
  | nil => intro tail args2; simp [buildFormatLoop]
  | cons a as ih =>
      intro tail args2
      rw [List.length_cons, buildFormatLoop_succ_front, List.append_assoc]
      have hfront : (['%', 'd', dc] ++ (buildFormatLoop ['%', 'd', dc] as.length ++ tail)
          : List Char)
          = '%' :: 'd' :: dc :: (buildFormatLoop ['%', 'd', dc] as.length ++ tail) := rfl
      rw [hfront, List.cons_append]
      have hstep1 : renderFormat
          ('%' :: 'd' :: dc :: (buildFormatLoop ['%', 'd', dc] as.length ++ tail))
          (a :: (as ++ args2)) =
          (toString a).toList ++
            renderFormat (dc :: (buildFormatLoop ['%', 'd', dc] as.length ++ tail))
              (as ++ args2) := rfl
      rw [hstep1, renderFormat_cons_ne dc hdc, ih]
      simp

/-- C8: for an order-1 integer tensor with all dimensions statically sized,
printing emits one format string whose rendering is the elements joined by
the orientation's delimiter (newline for a column vector, space for a row
vector) and terminated by a newline. -/
theorem printStaticOrder1_spec (t : TensorType) (data : List Int)
    (hkind : t.componentKind = .int)
    (hord : t.order = 1)
    (hstat : tensorHasSetDim t = false)
    (hsize : t.staticSize = .ok (data.length : Int))
    (hne : data ≠ []) :
    printStaticOrder1 t data =
      .ok (List.intercalate [if t.isColumnVector then '\n' else ' ']
            (data.map (fun a => (toString a).toList)) ++ ['\n']) := by
  obtain ⟨front, last, hd⟩ : ∃ front last, data = front ++ [last] := by
    rcases List.eq_nil_or_concat data with h | ⟨f, l, h⟩
    · exact absurd h hne
    · exact ⟨f, l, by rw [h, List.concat_eq_append]⟩
  subst hd
  rw [printStaticOrder1, if_neg (by simp [hstat]), if_pos hord]
  simp only [hsize, except_bind_ok]
  have hblock : (specifierFor t.componentKind ++
      (if t.isColumnVector then "\n" else " ")).toList =
      ['%', 'd', if t.isColumnVector then '\n' else ' '] := by
    cases hcv : t.isColumnVector <;> simp [specifierFor, hkind, hcv]
  set dc : Char := if t.isColumnVector then '\n' else ' ' with hdc
  have hdcne : dc ≠ '%' := by
    rw [hdc]
    cases t.isColumnVector <;> decide
  have hargs : (List.range ((((front ++ [last]).length : Nat) : Int)).toNat).map
      (fun i => (front ++ [last]).getD i 0) = front ++ [last] := by
    rw [Int.toNat_natCast]
    generalize front ++ [last] = l
    induction l with
    | nil => simp
    | cons x xs ihl =>
        rw [List.length_cons, List.range_succ_eq_map, List.map_cons, List.map_map]
        have hcomp : ((fun i => (x :: xs).getD i 0) ∘ Nat.succ) =
            fun i => xs.getD i 0 := by
          funext i
          simp [List.getD_cons_succ]
        rw [hcomp, ihl]
        rfl
  rw [hblock, hargs]
  have hn : ((((front ++ [last]).length : Nat) : Int)).toNat = front.length + 1 := by
    rw [Int.toNat_natCast]
    simp
  rw [hn]
  have hfmt : setLastToNewline (buildFormatLoop ['%', 'd', dc] (front.length + 1)) =
      buildFormatLoop ['%', 'd', dc] front.length ++ ['%', 'd', '\n'] := by
    show (buildFormatLoop ['%', 'd', dc] front.length ++ ['%', 'd', dc]).dropLast
        ++ ['\n'] = _
    have : (buildFormatLoop ['%', 'd', dc] front.length ++ ['%', 'd', dc]
        : List Char)
        = (buildFormatLoop ['%', 'd', dc] front.length ++ ['%', 'd']) ++ [dc] := by
      simp
    rw [this, List.dropLast_concat]
    simp
  rw [hfmt, renderFormat_blocks dc hdcne front]
  have hrender : renderFormat ['%', 'd', '\n'] [last] =
      (toString last).toList ++ ['\n'] := rfl
  rw [hrender]
  have hinter : ∀ (fr : List (List Char)) (la : List Char),
      ((fr.map (fun x => x ++ [dc])).flatten) ++ la =
        List.intercalate [dc] (fr ++ [la]) := by
    intro fr
    induction fr with
    | nil => intro la; simp [List.intercalate]
    | cons x xs ihf =>
        intro la
        have h2 : List.intercalate [dc] ((x :: xs) ++ [la]) =
            x ++ [dc] ++ List.intercalate [dc] (xs ++ [la]) := by
          cases xs with
          | nil => simp [List.intercalate, List.intersperse]
          | cons y ys => simp [List.intercalate, List.intersperse]
        rw [h2, ← ihf la]
        simp
  have hmm : (front.map (fun a => (toString a).toList ++ [dc])) =
      ((front.map (fun a => (toString a).toList)).map (fun x => x ++ [dc])) := by
    rw [List.map_map]
    rfl
  rw [hmm, ← List.append_assoc, hinter (front.map (fun a => (toString a).toList))
    ((toString last).toList)]
  simp

/-- C8 witness: the int row vector `[1,2,3]` prints exactly `1 2 3\n` and
the same values as a column vector print exactly `1\n2\n3\n`. -/
theorem printStaticOrder1_spec_example :
    printStaticOrder1 ⟨.int, [⟨[.range 3]⟩], [], false⟩ [1, 2, 3] =
      .ok "1 2 3\n".toList ∧
    printStaticOrder1 ⟨.int, [⟨[.range 3]⟩], [], true⟩ [1, 2, 3] =
      .ok "1\n2\n3\n".toList := by
  constructor
  · exact (printStaticOrder1_spec ⟨.int, [⟨[.range 3]⟩], [], false⟩ [1, 2, 3]
      rfl rfl (by decide) (by decide) (by decide)).trans (by decide)
  · exact (printStaticOrder1_spec ⟨.int, [⟨[.range 3]⟩], [], true⟩ [1, 2, 3]
      rfl rfl (by decide) (by decide) (by decide)).trans (by decide)

end Simit
